import Mathlib

/-!
Verification development for the Loris crawler script
(src/loris-crawler.py): a shallow embedding of the BIDS path resolver,
the manifest load/dedup logic, and the per-project ingest loop, with
theorems settling the specification claims about them.
-/

/-- One image record as returned by the projects/images API endpoint
(fields Candidate, Visit, ScanType, Link, lines 165-167 of the script). -/
structure ImageRecord where
  Candidate : String
  Visit : String
  ScanType : String
  Link : String
deriving DecidableEq, Repr

/-- Python str.lower on the ASCII range (the script lowercases the scan
type at line 116), modeled characterwise so the kernel can evaluate it. -/
def pyLower (s : String) : String :=
  ⟨s.data.map Char.toLower⟩

/-- Python str.startswith, modeled as a list prefix test on the
characters. -/
def pyStartsWith (s pre : String) : Bool :=
  pre.data.isPrefixOf s.data

/-- The modality/suffix rule chain inside bids_path (lines 116-126):
lowercase the scan type, then take the first matching prefix rule,
falling through to the misc rule whose suffix is the lowercased
scan type itself. -/
def resolve (scanType : String) : String × String :=
  if pyStartsWith (pyLower scanType) "t1" then ("anat", "T1w")
  else if pyStartsWith (pyLower scanType) "t2" then ("anat", "T2w")
  else if pyStartsWith (pyLower scanType) "fieldmap" then ("fmap", "epi")
  else if pyStartsWith (pyLower scanType) "dwi" then ("dwi", "dwi")
  else ("misc", pyLower scanType)

/-- The file name computed by bids_path (line 128): the f-string
subj_ses_suffix with the fixed .mnc extension. -/
def bidsName (img : ImageRecord) : String :=
  "sub-" ++ img.Candidate ++ "_ses-" ++ img.Visit ++ "_" ++
    (resolve img.ScanType).2 ++ ".mnc"

/-- bids_path (lines 113-129): returns the relative path
subj/ses/modality/filename together with the modality.  Paths are
modeled as slash-joined strings. -/
def bids_path (img : ImageRecord) : String × String :=
  ("sub-" ++ img.Candidate ++ "/" ++ "ses-" ++ img.Visit ++ "/" ++
      (resolve img.ScanType).1 ++ "/" ++ bidsName img,
    (resolve img.ScanType).1)

/-- The destination path built in the ingest loop (line 170):
target = Path("data") / project / rel_target. -/
def targetPath (project : String) (img : ImageRecord) : String :=
  "data/" ++ project ++ "/" ++ (bids_path img).1

/-- One manifest row as written by writer.writerow (lines 190-198),
with the field names of the csv header (lines 139-147). -/
structure ManifestRow where
  project : String
  candidate : String
  visit : String
  filename : String
  modality : String
  target_path : String
  url : String
deriving DecidableEq, Repr

/-- The row the loop writes for one registered image (lines 190-198):
url = API_BASE + Link (line 166), filename = target.name (the file
component produced by bids_path), target_path = str(target). -/
def mkManifestRow (apiBase project : String) (img : ImageRecord) : ManifestRow :=
  { project := project
    candidate := img.Candidate
    visit := img.Visit
    filename := bidsName img
    modality := (bids_path img).2
    target_path := targetPath project img
    url := apiBase ++ img.Link }

/-- Observable file and backend actions of the script, in program
order: header is writer.writeheader (line 150), register is the git
annex addurl call (lines 181-188), writeRow is writer.writerow (lines
190-198), materialize is datalad get (lines 201-207), flush stands for
an explicit durable flush of the manifest file handle (the script
performs none during the loop), close is f_out.close() (line 209). -/
inductive Event where
  | header
  | register (target : String)
  | writeRow (target : String)
  | materialize (target : String)
  | flush
  | close
deriving DecidableEq, Repr

/-- The events one registered row produces inside the loop: the addurl
call, then the csv row write, then the optional datalad get when the
get flag was passed. -/
def rowEvents (get : Bool) (r : ManifestRow) : List Event :=
  [Event.register r.target_path, Event.writeRow r.target_path] ++
    (if get then [Event.materialize r.target_path] else [])

/-- The mutable state of the ingest loop: the in-memory dedup set
existing_files (modeled as a list with membership as the set
semantics), the manifest rows appended so far this run, and the event
trace so far. -/
structure RunState where
  existing : List String
  rows : List ManifestRow
  events : List Event
deriving DecidableEq, Repr

/-- The state right after the manifest load (lines 91-96): the dedup
set holds the loaded paths, nothing has been appended, nothing has
happened yet. -/
def initState (initial : List String) : RunState :=
  ⟨initial, [], []⟩

/-- The body of the inner loop for one image (lines 165-207): compute
the target path; if it is already in existing_files, skip with no
call and no write; otherwise register the url, append the manifest
row and add the path to the dedup set. -/
def processImage (apiBase project : String) (get : Bool)
    (s : RunState) (img : ImageRecord) : RunState :=
  if targetPath project img ∈ s.existing then s
  else
    { existing := targetPath project img :: s.existing
      rows := s.rows ++ [mkManifestRow apiBase project img]
      events := s.events ++ rowEvents get (mkManifestRow apiBase project img) }

/-- The inner loop over one project's image list (line 165). -/
def processProject (apiBase project : String) (get : Bool)
    (s : RunState) (images : List ImageRecord) : RunState :=
  images.foldl (processImage apiBase project get) s

/-- The outer loop over the projects, each paired with the image list
its images endpoint returned (lines 155-207), starting from an
arbitrary state. -/
def runFrom (apiBase : String) (get : Bool) (s : RunState)
    (projs : List (String × List ImageRecord)) : RunState :=
  projs.foldl (fun t pr => processProject apiBase pr.1 get t pr.2) s

/-- One full run of the ingest loop from the freshly loaded dedup
set. -/
def runIngest (apiBase : String) (get : Bool) (initial : List String)
    (projs : List (String × List ImageRecord)) : RunState :=
  runFrom apiBase get (initState initial) projs

/-- The whole manifest-file event trace of a run: the header is
written once, before the loop, only when the manifest file did not
exist (lines 134, 149-150); then the loop events; then the single
close (line 209). -/
def runEvents (apiBase : String) (get manifestExists : Bool)
    (initial : List String) (projs : List (String × List ImageRecord)) : List Event :=
  (if manifestExists then [] else [Event.header]) ++
    (runIngest apiBase get initial projs).events ++ [Event.close]

/-- The event trace a given list of appended rows generates. -/
def traceOfRows (get : Bool) : List ManifestRow → List Event
  | [] => []
  | r :: rs => rowEvents get r ++ traceOfRows get rs

/-- Scans an event trace carrying a flag that records whether a
manifest row has been written but not yet made durable; a register
while the flag is set means the loop moved on to the next record
before the previous row was flushed. -/
def durableAux : Bool → List Event → Bool
  | pending, [] => !pending
  | pending, Event.register _ :: rest =>
      if pending then false else durableAux pending rest
  | _, Event.writeRow _ :: rest => durableAux true rest
  | pending, Event.materialize _ :: rest => durableAux pending rest
  | _, Event.flush :: rest => durableAux false rest
  | _, Event.close :: rest => durableAux false rest
  | pending, Event.header :: rest => durableAux pending rest

/-- The durability property the claim asserts of the trace: every
written manifest row is flushed (or the file closed) before the loop
reaches the next record, and none is left unflushed at the end. -/
def manifestDurablePerRecord (events : List Event) : Bool :=
  durableAux false events

/-- One parsed manifest row as csv.DictReader yields it: an
association of field names to values. -/
abbrev DictRow := List (String × String)

/-- Looking a field up in a parsed row; none models the key being
absent, which in the script surfaces as the KeyError of
row brackets target_path at line 96. -/
def lookupField (row : DictRow) (key : String) : Option String :=
  (row.find? (fun kv => kv.1 == key)).map (fun kv => kv.2)

/-- The failure mode of the manifest load: a row without the
target_path field (the ManifestCorruptError of the design, raised as
a KeyError by line 96). -/
inductive LoadError where
  | manifestCorrupt
deriving DecidableEq, Repr

/-- The loop body of the manifest load (lines 94-96): collect the
target_path of every row, failing on the first row that has no such
field. -/
def loadPaths : List DictRow → Except LoadError (List String)
  | [] => Except.ok []
  | row :: rest =>
    match lookupField row "target_path" with
    | none => Except.error LoadError.manifestCorrupt
    | some v => (loadPaths rest).map (fun l => v :: l)

/-- The manifest load (lines 91-96): none models an absent manifest
file, in which case the dedup set stays empty; otherwise every prior
row contributes its target_path. -/
def loadManifest : Option (List DictRow) → Except LoadError (List String)
  | none => Except.ok []
  | some rows => loadPaths rows

/-- The fatal error of the project enumeration (line 106). -/
inductive CrawlerError where
  | noProjects
deriving DecidableEq, Repr

/-- The project enumeration (lines 102-107): take the Projects member
of the response json, defaulting to the empty collection when the key
is absent; abort when it is empty; otherwise the sorted names. -/
def enumerateProjects (respProjects : Option (List String)) :
    Except CrawlerError (List String) :=
  let projects := respProjects.getD []
  if projects.isEmpty then Except.error CrawlerError.noProjects
  else Except.ok (projects.mergeSort (fun a b => decide (a ≤ b)))

/-- The per-project images lookup (line 162): the Images member of
the response json, defaulting to the empty list when the key is
absent. -/
def imagesField (respImages : Option (List ImageRecord)) : List ImageRecord :=
  respImages.getD []

/-- Processing one project straight from its raw images response. -/
def processProjectResp (apiBase project : String) (get : Bool)
    (s : RunState) (respImages : Option (List ImageRecord)) : RunState :=
  processProject apiBase project get s (imagesField respImages)

example : resolve "T1_MPRAGE" = ("anat", "T1w") := by decide
example : resolve "dwi_b1000" = ("dwi", "dwi") := by decide
example : resolve "localizer" = ("misc", "localizer") := by decide
example : targetPath "loris" ⟨"123", "V1", "t2_flair", "/l"⟩ =
    "data/loris/sub-123/ses-V1/anat/sub-123_ses-V1_T2w.mnc" := by decide
example :
    (runIngest "b" false [] [("p", [⟨"1", "V1", "t1", "/a"⟩, ⟨"1", "V1", "t1", "/b"⟩])]).rows.length
      = 1 := by decide

/-- The combined loop invariant tying the dedup set, the appended
rows and the event trace together. -/
def loopInv (get : Bool) (initial : List String) (s : RunState) : Prop :=
  (∀ x, x ∈ s.existing ↔ x ∈ initial ∨ x ∈ s.rows.map ManifestRow.target_path) ∧
  (s.rows.map ManifestRow.target_path).Nodup ∧
  (∀ t ∈ s.rows.map ManifestRow.target_path, t ∉ initial) ∧
  s.events = traceOfRows get s.rows

lemma foldl_preserves {α β : Type} {P : α → Prop} {f : α → β → α}
    (h : ∀ s b, P s → P (f s b)) :
    ∀ (l : List β) (s : α), P s → P (l.foldl f s) := by
  intro l
  induction l with
  | nil => exact fun s hs => hs
  | cons b rest ih => exact fun s hs => ih (f s b) (h s b hs)

lemma traceOfRows_append (g : Bool) (l₁ l₂ : List ManifestRow) :
    traceOfRows g (l₁ ++ l₂) = traceOfRows g l₁ ++ traceOfRows g l₂ := by
  induction l₁ with
  | nil => simp [traceOfRows]
  | cons r rs ih => simp [traceOfRows, ih]

lemma flush_not_mem_rowEvents (g : Bool) (r : ManifestRow) :
    Event.flush ∉ rowEvents g r := by
  cases g <;> simp [rowEvents]

lemma flush_not_mem_traceOfRows (g : Bool) (rows : List ManifestRow) :
    Event.flush ∉ traceOfRows g rows := by
  induction rows with
  | nil => simp [traceOfRows]
  | cons r rs ih =>
    simp only [traceOfRows, List.mem_append]
    exact fun h => h.elim (flush_not_mem_rowEvents g r) ih

lemma loopInv_initState (g : Bool) (initial : List String) :
    loopInv g initial (initState initial) := by
  refine ⟨fun x => ?_, ?_, ?_, ?_⟩ <;> simp [initState, traceOfRows]


lemma mkManifestRow_target (a p : String) (img : ImageRecord) :
    (mkManifestRow a p img).target_path = targetPath p img := rfl

lemma processImage_mem {p : String} {s : RunState} {img : ImageRecord}
    (a : String) (g : Bool) (h : targetPath p img ∈ s.existing) :
    processImage a p g s img = s := by
  simp [processImage, h]

lemma processImage_not_mem {p : String} {s : RunState} {img : ImageRecord}
    (a : String) (g : Bool) (h : targetPath p img ∉ s.existing) :
    processImage a p g s img =
      ⟨targetPath p img :: s.existing, s.rows ++ [mkManifestRow a p img],
        s.events ++ rowEvents g (mkManifestRow a p img)⟩ := by
  simp [processImage, h]

lemma loopInv_processImage {g : Bool} {initial : List String} {s : RunState}
    (a p : String) (img : ImageRecord) (h : loopInv g initial s) :
    loopInv g initial (processImage a p g s img) := by
  obtain ⟨hmem, hnd, hini, hev⟩ := h
  by_cases hc : targetPath p img ∈ s.existing
  · rw [processImage_mem a g hc]
    exact ⟨hmem, hnd, hini, hev⟩
  · have htgt : targetPath p img ∉ s.rows.map ManifestRow.target_path := by
      intro hx
      exact hc ((hmem (targetPath p img)).2 (Or.inr hx))
    have hini2 : targetPath p img ∉ initial := by
      intro hx
      exact hc ((hmem (targetPath p img)).2 (Or.inl hx))
    rw [processImage_not_mem a g hc]
    refine ⟨fun x => ?_, ?_, ?_, ?_⟩
    · simp only [List.mem_cons, List.map_append, List.map_cons, List.map_nil,
        List.mem_append, List.mem_singleton, mkManifestRow_target]
      rw [hmem x]
      tauto
    · simp only [List.map_append, List.map_cons, List.map_nil, mkManifestRow_target]
      rw [List.nodup_append]
      refine ⟨hnd, List.nodup_singleton _, ?_⟩
      intro t ht ht2
      simp only [List.mem_singleton] at ht2
      subst ht2
      exact htgt ht
    · simp only [List.map_append, List.map_cons, List.map_nil,
        List.mem_append, List.mem_singleton, mkManifestRow_target]
      intro t ht
      rcases ht with ht | ht
      · exact hini t ht
      · subst ht
        exact hini2
    · show s.events ++ rowEvents g (mkManifestRow a p img) =
        traceOfRows g (s.rows ++ [mkManifestRow a p img])
      rw [hev, traceOfRows_append]
      simp [traceOfRows]

lemma loopInv_processProject {g : Bool} {initial : List String} {s : RunState}
    (a p : String) (images : List ImageRecord) (h : loopInv g initial s) :
    loopInv g initial (processProject a p g s images) := by
  unfold processProject
  exact foldl_preserves (fun t img ht => loopInv_processImage a p img ht) images s h

lemma loopInv_runFrom {g : Bool} {initial : List String} {s : RunState}
    (a : String) (projs : List (String × List ImageRecord)) (h : loopInv g initial s) :
    loopInv g initial (runFrom a g s projs) := by
  unfold runFrom
  refine foldl_preserves ?_ projs s h
  intro t pr ht
  exact loopInv_processProject a pr.1 pr.2 ht

lemma loopInv_runIngest (a : String) (g : Bool) (initial : List String)
    (projs : List (String × List ImageRecord)) :
    loopInv g initial (runIngest a g initial projs) :=
  loopInv_runFrom a projs (loopInv_initState g initial)

lemma processProject_nil (a p : String) (g : Bool) (s : RunState) :
    processProject a p g s [] = s := rfl

lemma processProject_cons (a p : String) (g : Bool) (s : RunState)
    (i : ImageRecord) (rest : List ImageRecord) :
    processProject a p g s (i :: rest) =
      processProject a p g (processImage a p g s i) rest := rfl

lemma runFrom_nil (a : String) (g : Bool) (s : RunState) :
    runFrom a g s [] = s := rfl

lemma runFrom_cons (a : String) (g : Bool) (s : RunState)
    (q : String × List ImageRecord) (rest : List (String × List ImageRecord)) :
    runFrom a g s (q :: rest) =
      runFrom a g (processProject a q.1 g s q.2) rest := rfl

lemma mem_existing_processImage {x : String} {s : RunState}
    (a p : String) (g : Bool) (img : ImageRecord) (h : x ∈ s.existing) :
    x ∈ (processImage a p g s img).existing := by
  by_cases hc : targetPath p img ∈ s.existing
  · rw [processImage_mem a g hc]
    exact h
  · rw [processImage_not_mem a g hc]
    exact List.mem_cons_of_mem _ h

lemma target_mem_processImage (a p : String) (g : Bool) (s : RunState)
    (img : ImageRecord) :
    targetPath p img ∈ (processImage a p g s img).existing := by
  by_cases hc : targetPath p img ∈ s.existing
  · rw [processImage_mem a g hc]
    exact hc
  · rw [processImage_not_mem a g hc]
    exact List.mem_cons_self _ _

lemma mem_existing_processProject {x : String} {s : RunState}
    (a p : String) (g : Bool) (images : List ImageRecord) (h : x ∈ s.existing) :
    x ∈ (processProject a p g s images).existing := by
  unfold processProject
  refine foldl_preserves (P := fun t => x ∈ t.existing) ?_ images s h
  intro t img ht
  exact mem_existing_processImage a p g img ht

lemma mem_existing_runFrom {x : String} {s : RunState}
    (a : String) (g : Bool) (projs : List (String × List ImageRecord))
    (h : x ∈ s.existing) :
    x ∈ (runFrom a g s projs).existing := by
  unfold runFrom
  refine foldl_preserves (P := fun t => x ∈ t.existing) ?_ projs s h
  intro t pr ht
  exact mem_existing_processProject a pr.1 g pr.2 ht

lemma target_mem_processProject {img : ImageRecord} {images : List ImageRecord}
    (a p : String) (g : Bool) (s : RunState) (h : img ∈ images) :
    targetPath p img ∈ (processProject a p g s images).existing := by
  induction images generalizing s with
  | nil => simp at h
  | cons i rest ih =>
    rw [processProject_cons]
    rcases List.mem_cons.1 h with h0 | h0
    · subst h0
      exact mem_existing_processProject a p g rest (target_mem_processImage a p g s img)
    · exact ih (processImage a p g s i) h0

lemma target_mem_runFrom {pr : String × List ImageRecord} {img : ImageRecord}
    {projs : List (String × List ImageRecord)}
    (a : String) (g : Bool) (s : RunState) (hpr : pr ∈ projs) (himg : img ∈ pr.2) :
    targetPath pr.1 img ∈ (runFrom a g s projs).existing := by
  induction projs generalizing s with
  | nil => simp at hpr
  | cons q rest ih =>
    rw [runFrom_cons]
    rcases List.mem_cons.1 hpr with h0 | h0
    · subst h0
      exact mem_existing_runFrom a g rest (target_mem_processProject a pr.1 g s himg)
    · exact ih (processProject a q.1 g s q.2) h0

lemma processProject_noop {p : String} {s : RunState} {images : List ImageRecord}
    (a : String) (g : Bool) (h : ∀ img ∈ images, targetPath p img ∈ s.existing) :
    processProject a p g s images = s := by
  induction images with
  | nil => rfl
  | cons i rest ih =>
    rw [processProject_cons, processImage_mem a g (h i (List.mem_cons_self _ _))]
    exact ih (fun img hm => h img (List.mem_cons_of_mem _ hm))

lemma runFrom_noop {s : RunState} {projs : List (String × List ImageRecord)}
    (a : String) (g : Bool)
    (h : ∀ pr ∈ projs, ∀ img ∈ pr.2, targetPath pr.1 img ∈ s.existing) :
    runFrom a g s projs = s := by
  induction projs with
  | nil => rfl
  | cons q rest ih =>
    rw [runFrom_cons, processProject_noop a g (h q (List.mem_cons_self _ _))]
    exact ih (fun pr hpr img himg => h pr (List.mem_cons_of_mem _ hpr) img himg)

/-- C3 counterexample: for project loris, candidate 123, visit V1,
scan type t2_flair, the script resolves the destination to
data/loris/sub-123/ses-V1/anat/sub-123_ses-V1_T2w.mnc, not to the
claimed loris/sub-123/ses-V1/anat/sub-123_ses-V1_T2w.mnc: the claimed
template misses the leading data directory the loop prepends at line
170. -/
theorem destination_path_counterexample :
    targetPath "loris" ⟨"123", "V1", "t2_flair", "/link"⟩ =
        "data/loris/sub-123/ses-V1/anat/sub-123_ses-V1_T2w.mnc" ∧
    targetPath "loris" ⟨"123", "V1", "t2_flair", "/link"⟩ ≠
        "loris/sub-123/ses-V1/anat/sub-123_ses-V1_T2w.mnc" := by
  constructor <;> decide

/-- C3 amended: for every image record the destination path equals
data/ then project/sub-candidate/ses-visit/modality/
sub-candidate_ses-visit_suffix.mnc, the modality and suffix coming
from the resolver and .mnc being the fixed extension; in particular
the loris/123/V1/t2_flair record resolves to
data/loris/sub-123/ses-V1/anat/sub-123_ses-V1_T2w.mnc. -/
theorem destination_path_format :
    (∀ (project : String) (img : ImageRecord),
      targetPath project img =
        "data/" ++ project ++ "/" ++ "sub-" ++ img.Candidate ++ "/" ++
          "ses-" ++ img.Visit ++ "/" ++ (resolve img.ScanType).1 ++ "/" ++
          "sub-" ++ img.Candidate ++ "_ses-" ++ img.Visit ++ "_" ++
          (resolve img.ScanType).2 ++ ".mnc") ∧
    targetPath "loris" ⟨"123", "V1", "t2_flair", "/link"⟩ =
      "data/loris/sub-123/ses-V1/anat/sub-123_ses-V1_T2w.mnc" := by
  constructor
  · intro project img
    simp only [targetPath, bids_path, bidsName, String.append_assoc]
  · decide

/-- C4: the resolver lowercases the scan type before matching, so two
scan types with the same lowercasing resolve identically; a t1-type
scan always takes the first rule; and the three examples of the claim
evaluate as stated: T1_MPRAGE to anat/T1w, dwi_b1000 to dwi/dwi,
localizer to misc/localizer. -/
theorem resolve_rule_table :
    (∀ s t : String, pyLower s = pyLower t → resolve s = resolve t) ∧
    (∀ s : String, pyStartsWith (pyLower s) "t1" = true → resolve s = ("anat", "T1w")) ∧
    resolve "T1_MPRAGE" = ("anat", "T1w") ∧
    resolve "dwi_b1000" = ("dwi", "dwi") ∧
    resolve "localizer" = ("misc", "localizer") := by
  refine ⟨?_, ?_, by decide, by decide, by decide⟩
  · intro s t h
    unfold resolve
    rw [h]
  · intro s h
    unfold resolve
    rw [h]
    simp

/-- C4 witness: the case-insensitivity part at scan types Ab and aB,
and the t1 rule at the concrete scan type T1_test. -/
theorem resolve_rule_table_witness :
    resolve "Ab" = resolve "aB" ∧ resolve "T1_test" = ("anat", "T1w") :=
  ⟨resolve_rule_table.1 "Ab" "aB" (by decide),
   resolve_rule_table.2.1 "T1_test" (by decide)⟩

/-- C5 counterexample: the scan type Localizer matches no prefix rule
and resolves to suffix localizer, the lowercased string, not to the
literal Localizer exactly as it appears in the record. -/
theorem misc_suffix_counterexample :
    resolve "Localizer" = ("misc", "localizer") ∧
    resolve "Localizer" ≠ ("misc", "Localizer") := by
  constructor <;> decide

/-- C5 amended: when none of the prefixes t1, t2, fieldmap, dwi match
the lowercased scan type, the resolver yields modality misc and a
suffix equal to the lowercased scan-type string (not the literal
string from the record). -/
theorem misc_suffix_lowercased :
    ∀ s : String,
      pyStartsWith (pyLower s) "t1" = false →
      pyStartsWith (pyLower s) "t2" = false →
      pyStartsWith (pyLower s) "fieldmap" = false →
      pyStartsWith (pyLower s) "dwi" = false →
      resolve s = ("misc", pyLower s) := by
  intro s h1 h2 h3 h4
  unfold resolve
  rw [h1, h2, h3, h4]
  simp

/-- C5 amended witness: the misc rule applied at the concrete scan
type Localizer_AXIAL. -/
theorem misc_suffix_lowercased_witness :
    resolve "Localizer_AXIAL" = ("misc", pyLower "Localizer_AXIAL") :=
  misc_suffix_lowercased "Localizer_AXIAL" (by decide) (by decide) (by decide) (by decide)

/-- C10: a projects response without the Projects key behaves exactly
like one with an empty Projects collection and aborts with the
no-projects error; an images response without the Images key behaves
exactly like an empty image list, leaving the run state unchanged and
raising nothing. -/
theorem missing_json_keys_defaulted :
    enumerateProjects none = enumerateProjects (some []) ∧
    enumerateProjects none = Except.error CrawlerError.noProjects ∧
    (∀ (a p : String) (g : Bool) (s : RunState),
      processProjectResp a p g s none = processProjectResp a p g s (some [])) ∧
    (∀ (a p : String) (g : Bool) (s : RunState),
      processProjectResp a p g s none = s) := by
  exact ⟨rfl, rfl, fun a p g s => rfl, fun a p g s => rfl⟩

/-- C1: dedup is keyed on the destination path: the rows appended in
one run have pairwise distinct target paths, none of them repeats a
path already present before the run, so a duplicate-free prior
manifest stays duplicate-free; and two records resolving to the same
destination path, even with different remote links, never both get
registered. -/
theorem registered_paths_unique :
    ∀ (a : String) (g : Bool) (initial : List String)
      (projs : List (String × List ImageRecord)),
      ((runIngest a g initial projs).rows.map ManifestRow.target_path).Nodup ∧
      (∀ t ∈ (runIngest a g initial projs).rows.map ManifestRow.target_path,
        t ∉ initial) ∧
      (initial.Nodup →
        (initial ++
          (runIngest a g initial projs).rows.map ManifestRow.target_path).Nodup) ∧
      (∀ (p : String) (i1 i2 : ImageRecord), targetPath p i1 = targetPath p i2 →
        (runIngest a g initial [(p, [i1, i2])]).rows.length ≤ 1) := by
  intro a g initial projs
  obtain ⟨hmem, hnd, hini, hev⟩ := loopInv_runIngest a g initial projs
  refine ⟨hnd, hini, ?_, ?_⟩
  · intro h0
    rw [List.nodup_append]
    exact ⟨h0, hnd, fun t ht ht2 => hini t ht2 ht⟩
  · intro p i1 i2 heq
    show (runFrom a g (initState initial) [(p, [i1, i2])]).rows.length ≤ 1
    rw [runFrom_cons, runFrom_nil, processProject_cons, processProject_cons,
      processProject_nil]
    have h2 : targetPath p i2 ∈ (processImage a p g (initState initial) i1).existing := by
      rw [← heq]
      exact target_mem_processImage a p g (initState initial) i1
    rw [processImage_mem a g h2]
    by_cases hc : targetPath p i1 ∈ (initState initial).existing
    · rw [processImage_mem a g hc]
      simp [initState]
    · rw [processImage_not_mem a g hc]
      simp [initState]

/-- C1 witness: a concrete run over one record starting from a prior
path, and a concrete two-record project whose records share the
destination path while their links differ. -/
theorem registered_paths_unique_witness :
    (["old"] ++ (runIngest "b" false ["old"]
        [("loris", [⟨"123", "V1", "t2_flair", "/a"⟩])]).rows.map
          ManifestRow.target_path).Nodup ∧
    "data/loris/sub-123/ses-V1/anat/sub-123_ses-V1_T2w.mnc" ∉ ["old"] ∧
    (runIngest "b" false ["old"]
        [("p", [⟨"1", "V1", "t1", "/a"⟩, ⟨"1", "V1", "t1", "/b"⟩])]).rows.length ≤ 1 :=
  ⟨(registered_paths_unique "b" false ["old"]
      [("loris", [⟨"123", "V1", "t2_flair", "/a"⟩])]).2.2.1 (by decide),
   (registered_paths_unique "b" false ["old"]
      [("loris", [⟨"123", "V1", "t2_flair", "/a"⟩])]).2.1 _ (by decide),
   (registered_paths_unique "b" false ["old"] []).2.2.2 "p"
      ⟨"1", "V1", "t1", "/a"⟩ ⟨"1", "V1", "t1", "/b"⟩ (by decide)⟩

/-- C2: when the dedup set loaded at the start of the second run has
exactly the membership of the set left by the first run over the same
project list, the second run is a no-op: its final state is the start
state, with zero appended rows and zero events, so no backend call
and no manifest append happens. -/
theorem second_run_is_noop :
    ∀ (a : String) (g : Bool) (initial L : List String)
      (projs : List (String × List ImageRecord)),
      (∀ x, x ∈ L ↔ x ∈ (runIngest a g initial projs).existing) →
      runIngest a g L projs = initState L := by
  intro a g initial L projs hL
  show runFrom a g (initState L) projs = initState L
  apply runFrom_noop
  intro pr hpr img himg
  show targetPath pr.1 img ∈ L
  exact (hL _).2 (target_mem_runFrom a g (initState initial) hpr himg)

/-- C2 witness: a concrete second run over the dedup set produced by
a concrete first run. -/
theorem second_run_is_noop_witness :
    runIngest "b" false
        ((runIngest "b" false [] [("p", [⟨"1", "V1", "t1", "/a"⟩])]).existing)
        [("p", [⟨"1", "V1", "t1", "/a"⟩])] =
      initState ((runIngest "b" false [] [("p", [⟨"1", "V1", "t1", "/a"⟩])]).existing) :=
  second_run_is_noop "b" false [] _ _ (fun _ => Iff.rfl)

/-- C7: loading an absent manifest yields the empty dedup set; when
every parsed row carries the target_path field the load returns
exactly the target paths of all prior rows; and a row without the
field makes the load fail with the corrupt-manifest error instead of
silently continuing. -/
theorem loadManifest_spec :
    loadManifest none = Except.ok [] ∧
    (∀ rows : List DictRow,
      (∀ r ∈ rows, (lookupField r "target_path").isSome = true) →
      loadManifest (some rows) =
        Except.ok (rows.filterMap (fun r => lookupField r "target_path"))) ∧
    (∀ (rows : List DictRow) (r : DictRow), r ∈ rows →
      lookupField r "target_path" = none →
      loadManifest (some rows) = Except.error LoadError.manifestCorrupt) := by
  refine ⟨rfl, ?_, ?_⟩
  · intro rows h
    show loadPaths rows = _
    induction rows with
    | nil => rfl
    | cons r rest ih =>
      obtain ⟨v, hv⟩ :=
        Option.isSome_iff_exists.1 (h r (List.mem_cons_self _ _))
      have ihr := ih (fun r2 h2 => h r2 (List.mem_cons_of_mem _ h2))
      simp only [loadPaths, hv, List.filterMap_cons, ihr, Except.map]
  · intro rows r hmemr hnone
    induction rows with
    | nil => simp at hmemr
    | cons q rest ih =>
      rcases List.mem_cons.1 hmemr with h0 | h0
      · subst h0
        show loadPaths (r :: rest) = _
        simp only [loadPaths, hnone]
      · show loadPaths (q :: rest) = _
        cases hq : lookupField q "target_path" with
        | none => simp only [loadPaths, hq]
        | some v =>
          have ihr : loadPaths rest = Except.error LoadError.manifestCorrupt := ih h0
          simp only [loadPaths, hq, ihr, Except.map]

/-- C7 witness: a concrete two-row manifest loads its two target
paths; a concrete row without the target_path field fails the
load. -/
theorem loadManifest_spec_witness :
    loadManifest (some [[("target_path", "data/a")], [("target_path", "data/b")]]) =
        Except.ok ["data/a", "data/b"] ∧
    loadManifest (some [[("project", "p")]]) =
        Except.error LoadError.manifestCorrupt :=
  ⟨(loadManifest_spec.2.1 _ (by decide)).trans (congrArg Except.ok (by decide)),
   loadManifest_spec.2.2 _ [("project", "p")] (by decide) (by decide)⟩

lemma runFrom_append (a : String) (g : Bool) (s : RunState)
    (l1 l2 : List (String × List ImageRecord)) :
    runFrom a g s (l1 ++ l2) = runFrom a g (runFrom a g s l1) l2 := by
  unfold runFrom
  rw [List.foldl_append]

/-- C6 counterexample: in a concrete run that registers two records,
the manifest-file trace contains no durable flush between the first
row write and the second registration (the only durable point is the
single close after the whole loop), so the claimed
written-and-flushed-before-the-next-record property fails while both
registrations did happen. -/
theorem manifest_durability_counterexample :
    manifestDurablePerRecord
        (runEvents "b" false true []
          [("p", [⟨"1", "V1", "t1", "/a"⟩, ⟨"2", "V1", "t1", "/b"⟩])]) = false ∧
    (runIngest "b" false []
        [("p", [⟨"1", "V1", "t1", "/a"⟩, ⟨"2", "V1", "t1", "/b"⟩])]).rows.length = 2 := by
  constructor <;> decide

/-- C6 amended: for every registered record the manifest row write
happens strictly after its successful registration and strictly
before the next record is processed — the whole trace is the
concatenation, row by row in registration order, of register-
then-write blocks, with the single close last — but the row is not
made durable before the loop moves on: no flush ever occurs, durability
comes only from the final close, so a mid-run crash can leave
completed registrations unrecorded. -/
theorem manifest_write_ordering :
    ∀ (a : String) (g mex : Bool) (initial : List String)
      (projs : List (String × List ImageRecord)),
      runEvents a g mex initial projs =
        (if mex then [] else [Event.header]) ++
          traceOfRows g (runIngest a g initial projs).rows ++ [Event.close] ∧
      Event.flush ∉ runEvents a g mex initial projs := by
  intro a g mex initial projs
  obtain ⟨hmem, hnd, hini, hev⟩ := loopInv_runIngest a g initial projs
  constructor
  · unfold runEvents
    rw [hev]
  · unfold runEvents
    rw [hev]
    intro hmem2
    rcases List.mem_append.1 hmem2 with h | h
    · rcases List.mem_append.1 h with h | h
      · cases mex <;> simp at h
      · exact flush_not_mem_traceOfRows g _ h
    · simp at h

/-- C8: a project whose enumeration returned zero records leaves the
run state untouched, writes nothing (neither header nor rows), and
the run over the remaining projects proceeds exactly as if the empty
project were absent, both in final state and in the whole manifest
file trace (whose header depends only on whether the manifest file
existed, never on a project). -/
theorem empty_project_is_noop :
    (∀ (a p : String) (g : Bool) (s : RunState), processProject a p g s [] = s) ∧
    (∀ (a : String) (g : Bool) (initial : List String)
      (pre post : List (String × List ImageRecord)) (p : String),
      runIngest a g initial (pre ++ (p, []) :: post) =
        runIngest a g initial (pre ++ post)) ∧
    (∀ (a : String) (g mex : Bool) (initial : List String)
      (pre post : List (String × List ImageRecord)) (p : String),
      runEvents a g mex initial (pre ++ (p, []) :: post) =
        runEvents a g mex initial (pre ++ post)) := by
  have h2 : ∀ (a : String) (g : Bool) (initial : List String)
      (pre post : List (String × List ImageRecord)) (p : String),
      runIngest a g initial (pre ++ (p, []) :: post) =
        runIngest a g initial (pre ++ post) := by
    intro a g initial pre post p
    show runFrom a g (initState initial) (pre ++ (p, []) :: post) =
      runFrom a g (initState initial) (pre ++ post)
    rw [runFrom_append, runFrom_append, runFrom_cons]
    rfl
  refine ⟨fun a p g s => rfl, h2, ?_⟩
  intro a g mex initial pre post p
  unfold runEvents
  rw [h2]

/-- C9: the in-memory dedup set always equals, in membership, the
union of the paths loaded from the pre-existing manifest and the
target paths of the rows appended so far: it holds at the start, is
preserved by every loop step (which also only ever grows the set and
only ever appends rows), and therefore holds at the end of every
run — so a path enters the set only together with its appended row. -/
theorem dedup_set_invariant :
    (∀ (initial : List String) (x : String),
      x ∈ (initState initial).existing ↔
        x ∈ initial ∨ x ∈ (initState initial).rows.map ManifestRow.target_path) ∧
    (∀ (a p : String) (g : Bool) (initial : List String) (s : RunState)
      (img : ImageRecord),
      (∀ x, x ∈ s.existing ↔ x ∈ initial ∨ x ∈ s.rows.map ManifestRow.target_path) →
      ((∀ x, x ∈ (processImage a p g s img).existing ↔
          x ∈ initial ∨
            x ∈ (processImage a p g s img).rows.map ManifestRow.target_path) ∧
        (∀ x, x ∈ s.existing → x ∈ (processImage a p g s img).existing) ∧
        (∃ added, (processImage a p g s img).rows = s.rows ++ added))) ∧
    (∀ (a : String) (g : Bool) (initial : List String)
      (projs : List (String × List ImageRecord)) (x : String),
      x ∈ (runIngest a g initial projs).existing ↔
        x ∈ initial ∨
          x ∈ (runIngest a g initial projs).rows.map ManifestRow.target_path) := by
  refine ⟨?_, ?_, ?_⟩
  · intro initial x
    simp [initState]
  · intro a p g initial s img hmem
    by_cases hc : targetPath p img ∈ s.existing
    · rw [processImage_mem a g hc]
      exact ⟨hmem, fun x hx => hx, ⟨[], by simp⟩⟩
    · rw [processImage_not_mem a g hc]
      refine ⟨fun x => ?_, fun x hx => List.mem_cons_of_mem _ hx,
        ⟨[mkManifestRow a p img], rfl⟩⟩
      simp only [List.mem_cons, List.map_append, List.map_cons, List.map_nil,
        List.mem_append, List.mem_singleton, mkManifestRow_target]
      rw [hmem x]
      tauto
  · intro a g initial projs x
    exact (loopInv_runIngest a g initial projs).1 x

/-- C9 witness: the preservation step applied at a concrete state
satisfying the invariant, showing the previously present path is
still in the set afterwards. -/
theorem dedup_set_invariant_witness :
    "x" ∈ (processImage "b" "p" false (initState ["x"]) ⟨"1", "V1", "t1", "/a"⟩).existing :=
  (dedup_set_invariant.2.1 "b" "p" false ["x"] (initState ["x"])
      ⟨"1", "V1", "t1", "/a"⟩ (fun x => by simp [initState])).2.1 "x" (by decide)
